import Mathlib

/-!
# Verification of the rp2040-hal PIO driver (`src/rp2040-hal/src/pio.rs`)

Shallow embedding of the PIO instruction-memory allocator, the state-machine
register primitives and the `PIOBuilder::build` sequence, together with
theorems settling the frozen claims about them.

Modelling conventions:
* Machine integers (`u8`, `u16`, `u32`) are `Nat` with explicit `% 2 ^ w`
  where overflow matters.
* Rust `<<` on a `uW` value with a shift amount `≥ W` is an arithmetic
  overflow.  Release builds compile it to a masked shift (the shift amount is
  taken mod the bit width); debug builds panic.  The embedding uses the
  masked-shift (release) semantics via `u32shl` / `u8shl`; the places where
  the two semantics differ are exactly the overflow sites discussed in the
  theorems below.
* A svd2rust `reg.write(|w| ...)` resets the whole register to its reset
  value (0 for every register touched here) and then sets the named fields,
  each value truncated to the field width; `reg.read().field().bits()`
  extracts just the field.  Both are modelled by explicit `% 2 ^ width`.
* `f32` arithmetic in `set_clock_divisor` is modelled as exact rational
  arithmetic; on every input appearing in the claims (1.0, 2.5) each `f32`
  operation involved is exact, so the model agrees with IEEE-754 single
  precision there.
* Hardware state lives in explicit records (`PIOState`); the volatile writes
  performed by `build` are additionally recorded as a trace of `Event`s in
  program order.
-/

namespace Pio

/-- Masked 32-bit shift-left: Rust `x << n` on `u32` under release semantics
(the shift amount is reduced mod 32, the result truncated to 32 bits). -/
def u32shl (x n : Nat) : Nat := (x <<< (n % 32)) % 2 ^ 32

/-- Masked 8-bit shift-left: Rust `x << n` on `u8` under release semantics. -/
def u8shl (x n : Nat) : Nat := (x <<< (n % 8)) % 2 ^ 8

/-- Rust `!x` on `u8` (bitwise not). -/
def u8not (x : Nat) : Nat := x ^^^ 255

/-- The free-slot mask `(1 << len) - 1` computed by
`find_offset_for_instructions` and `add_program` on the `u32` occupancy
bitmap. -/
def u32mask (len : Nat) : Nat := u32shl 1 len - 1

/-- The shift amount of the `(1 << i.len()) - 1` mask computation: the
instruction count of the program being placed. -/
def mask_shift_amount (i : List Nat) : Nat := i.length

/-- Rust `u32` shift-overflow predicate: `x << n` on `u32` overflows
(debug panic, masked shift in release) exactly when `n ≥ 32`. -/
def u32_shl_overflows (n : Nat) : Bool := decide (32 ≤ n)

/-- Rust inclusive range `a..=b` as the list of values it iterates
(ascending; empty when `a > b`). -/
def rangeIncl (a b : Nat) : List Nat := (List.range (b + 1 - a)).map (a + ·)

/-- Transcription of `PIO::find_offset_for_instructions`.  `used` is the
`used_instruction_space` occupancy bitmap (one bit per slot of the 32-word
instruction memory), `i` the instruction words, `origin` the optional fixed
origin.  Direct transcription of the source, including the `(32 - i.len())..=0`
scan of the no-origin branch and the unshifted/shifted mask tests. -/
def find_offset_for_instructions (used : Nat) (i : List Nat) (origin : Option Nat) :
    Option Nat :=
  if i.length > 32 then
    none
  else
    let mask := u32mask i.length
    match origin with
    | some origin =>
      if origin > 32 - i.length then none
      else if used &&& u32shl mask origin ≠ 0 then none
      else some origin
    | none =>
      (rangeIncl (32 - i.length) 0).find? fun j => used &&& u32shl mask j == 0
end Pio

namespace Pio

/-- Execution-control register fields (`sm_execctrl`). -/
structure ExecCtrl where
  wrap_top : Nat
  wrap_bottom : Nat
  side_en : Bool
  side_pindir : Bool
  jmp_pin : Nat
  out_sticky : Bool
  inline_out_en : Bool
  out_en_sel : Nat
  status_sel : Bool
deriving Repr, DecidableEq

/-- Pin-control register fields (`sm_pinctrl`). -/
structure PinCtrl where
  in_base : Nat
  out_base : Nat
  out_count : Nat
  set_base : Nat
  set_count : Nat
  sideset_base : Nat
  sideset_count : Nat
deriving Repr, DecidableEq

/-- Shift-control register fields (`sm_shiftctrl`). -/
structure ShiftCtrl where
  fjoin_rx : Bool
  fjoin_tx : Bool
  autopull : Bool
  autopush : Bool
  pull_thresh : Nat
  push_thresh : Nat
  out_shiftdir : Bool
  in_shiftdir : Bool
deriving Repr, DecidableEq

/-- Per-state-machine registers. -/
structure SMState where
  execctrl : ExecCtrl
  pinctrl : PinCtrl
  shiftctrl : ShiftCtrl
  clkdiv_int : Nat
  clkdiv_frac : Nat
  instr : Nat
  addr : Nat
deriving Repr, DecidableEq

/-- The shared `ctrl` register of a PIO block: `clkdiv_restart` (bits 11:8),
`sm_restart` (bits 7:4) and `sm_enable` (bits 3:0), one bit per state
machine in each 4-bit field. -/
structure CtrlReg where
  clkdiv_restart : Nat
  sm_restart : Nat
  sm_enable : Nat
deriving Repr, DecidableEq

/-- State of one PIO block: the driver's `used_instruction_space` bitmap,
the 32-word shared instruction memory, the shared `ctrl` register and the
four state machines' registers. -/
structure PIOState where
  used : Nat
  instrMem : Nat → Nat
  ctrl : CtrlReg
  sm : Nat → SMState

/-- Transcription of `PIO::add_program`: on a successful `find_offset_for_instructions`,
writes each instruction word into the instruction memory at `i + offset`
and ORs the bitmap with the *unshifted* mask `(1 << instructions.len()) - 1`
(exactly as the source does), returning the offset; otherwise leaves the
state untouched. -/
def add_program (st : PIOState) (instructions : List Nat) (origin : Option Nat) :
    Option Nat × PIOState :=
  match find_offset_for_instructions st.used instructions origin with
  | some offset =>
    let mem := instructions.enum.foldl
      (fun m p => fun j => if j = p.fst + offset then p.snd % 2 ^ 32 else m j)
      st.instrMem
    (some offset,
      { st with
        instrMem := mem
        used := st.used ||| u32mask instructions.length })
  | none => (none, st)

/-- Transcription of `StateMachine::set_enabled`: reads the 4-bit `sm_enable` field, replaces
this machine's bit, and writes the whole `ctrl` register back with only the
`sm_enable` field set (a svd2rust `write` zeroes the other fields). -/
def set_enabled (c : CtrlReg) (id : Nat) (enabled : Bool) : CtrlReg :=
  let bits := c.sm_enable % 2 ^ 4
  let bits := (bits &&& u8not (u8shl 1 id)) ||| u8shl (cond enabled 1 0) id
  { clkdiv_restart := 0, sm_restart := 0, sm_enable := bits % 2 ^ 4 }

/-- Transcription of `StateMachine::restart`: ORs this machine's bit into the 4-bit
`sm_restart` field and writes the whole `ctrl` register with only that field
set (zeroing `sm_enable` and `clkdiv_restart`). -/
def restart (c : CtrlReg) (id : Nat) : CtrlReg :=
  let bits := c.sm_restart % 2 ^ 4 ||| u8shl 1 id
  { clkdiv_restart := 0, sm_restart := bits % 2 ^ 4, sm_enable := 0 }

/-- Transcription of `StateMachine::reset_clock`: ORs this machine's bit into the 4-bit
`clkdiv_restart` field and writes the whole `ctrl` register with only that
field set (zeroing `sm_enable` and `sm_restart`). -/
def reset_clock (c : CtrlReg) (id : Nat) : CtrlReg :=
  let bits := c.clkdiv_restart % 2 ^ 4 ||| u8shl 1 id
  { clkdiv_restart := bits % 2 ^ 4, sm_restart := 0, sm_enable := 0 }

/-- Rust `f32::trunc` on the rational model: round toward zero. -/
def ratTrunc (q : ℚ) : ℤ := if 0 ≤ q then ⌊q⌋ else ⌈q⌉

/-- Rust `as u16` float-to-integer cast: saturating, rounding toward zero. -/
def castU16 (q : ℚ) : Nat := if q < 0 then 0 else min (ratTrunc q).toNat 65535

/-- Rust `as u8` float-to-integer cast: saturating, rounding toward zero. -/
def castU8 (q : ℚ) : Nat := if q < 0 then 0 else min (ratTrunc q).toNat 255

/-- Transcription of `StateMachine::set_clock_divisor`: `int = divisor as u16`,
`frac = (divisor.fract() * 256.0) as u8`, written to the `sm_clkdiv`
register fields.  Returns `(int, frac)`. -/
def set_clock_divisor (divisor : ℚ) : Nat × Nat :=
  (castU16 divisor, castU8 ((divisor - ratTrunc divisor) * 256))

/-- Transcription of `StateMachine::set_instruction`: write the 16-bit `sm_instr` field. -/
def set_instruction (s : SMState) (instruction : Nat) : SMState :=
  { s with instr := instruction % 2 ^ 16 }

/-- Modelled from the spec: the hardware response to a forced instruction,
which is not part of `src` (spec §4.2: `force_instruction(word)` "writes an
instruction directly into the execution register, causing immediate
execution — used only to synthesize a jump to set the program counter").
An unconditional `JMP` (opcode bits 15..13 = 0, condition bits 7..5 = 0)
sets the program counter (`sm_addr`) to its 5-bit target address; any other
forced word is not given a semantics here. -/
def execForced (s : SMState) (v : Nat) : SMState :=
  if v >>> 13 % 2 ^ 3 = 0 ∧ v >>> 5 % 2 ^ 3 = 0 then
    { s with addr := v % 2 ^ 5 }
  else s

/-- The `PIOBuilder` structure with the field set of the source. -/
structure PIOBuilder where
  instructions : List Nat
  instruction_offset : Option Nat
  wrap_top : Nat
  wrap_bottom : Nat
  side_en : Bool
  side_pindir : Bool
  jmp_pin : Nat
  out_sticky : Bool
  inline_out_en : Bool
  out_en_sel : Nat
  status_sel : Bool
  in_base : Nat
  out_base : Nat
  out_count : Nat
  set_base : Nat
  set_count : Nat
  sideset_base : Nat
  sideset_count : Nat
  fjoin_rx : Bool
  fjoin_tx : Bool
  autopull : Bool
  autopush : Bool
  pull_thresh : Nat
  push_thresh : Nat
  in_shiftdir : Bool
  out_shiftdir : Bool
  clock_divisor : ℚ

/-- Transcription of `impl Default for PIOBuilder`. -/
def PIOBuilder.default : PIOBuilder where
  instructions := []
  instruction_offset := none
  wrap_top := 0
  wrap_bottom := 31
  side_en := false
  side_pindir := false
  jmp_pin := 0
  out_sticky := false
  inline_out_en := false
  out_en_sel := 0
  status_sel := false
  in_base := 0
  out_base := 0
  out_count := 32
  set_base := 0
  set_count := 0
  sideset_base := 0
  sideset_count := 0
  fjoin_rx := false
  fjoin_tx := false
  autopull := false
  autopush := false
  pull_thresh := 32
  push_thresh := 32
  in_shiftdir := true
  out_shiftdir := true
  clock_divisor := 1

/-- Transcription of `enum BuildError`: errors of `PIOBuilder::build`. -/
inductive BuildError where
  | NoSpace
deriving Repr, DecidableEq

/-- Update one state machine's registers inside a `PIOState`. -/
def updateSM (st : PIOState) (id : Nat) (f : SMState → SMState) : PIOState :=
  { st with sm := fun j => if j = id then f (st.sm j) else st.sm j }

/-- One volatile hardware write performed by `PIOBuilder::build`, in program
order.  `reserve` stands for the instruction-memory writes plus the bitmap
update of `add_program`. -/
inductive Event where
  | reserve (offset len : Nat)
  | enableWrite (id : Nat) (enabled : Bool)
  | execctrlWrite (id wrapTop wrapBottom : Nat)
  | pinctrlWrite (id : Nat)
  | shiftctrlWrite (id : Nat)
  | clkdivWrite (id : Nat)
  | restartWrite (id : Nat)
  | clkdivRestartWrite (id : Nat)
  | instrWrite (id v : Nat)
deriving Repr, DecidableEq

/-- Transcription of `PIOBuilder::build`, the source's sequence —
`add_program`, disable, `sm_execctrl` write (wrap bounds translated by the
allocation offset, each truncated to its 5-bit field), `sm_pinctrl` write,
`sm_shiftctrl` write, clock divisor, `restart`, `reset_clock`, forced
`JMP offset` (`0b000_00000_000_00000 | offset as u16`), enable.  Returns the
result, the final state and the trace of hardware writes. -/
def build (b : PIOBuilder) (st : PIOState) (id : Nat) :
    Except BuildError Unit × PIOState × List Event :=
  match add_program st b.instructions b.instruction_offset with
  | (none, st') => (.error .NoSpace, st', [])
  | (some offset, st1) =>
    let st2 := { st1 with ctrl := set_enabled st1.ctrl id false }
    let wt := (offset % 2 ^ 8 + b.wrap_top) % 2 ^ 8 % 2 ^ 5
    let wb := (offset % 2 ^ 8 + b.wrap_bottom) % 2 ^ 8 % 2 ^ 5
    let st3 := updateSM st2 id fun s =>
      { s with execctrl :=
        { wrap_top := wt
          wrap_bottom := wb
          side_en := b.side_en
          side_pindir := b.side_pindir
          jmp_pin := b.jmp_pin % 2 ^ 5
          out_sticky := b.out_sticky
          inline_out_en := b.inline_out_en
          out_en_sel := b.out_en_sel % 2 ^ 5
          status_sel := b.status_sel } }
    let st4 := updateSM st3 id fun s =>
      { s with pinctrl :=
        { in_base := b.in_base % 2 ^ 5
          out_base := b.out_base % 2 ^ 5
          out_count := b.out_count % 2 ^ 6
          set_base := b.set_base % 2 ^ 5
          set_count := b.set_count % 2 ^ 3
          sideset_base := b.sideset_base % 2 ^ 5
          sideset_count := b.sideset_count % 2 ^ 3 } }
    let st5 := updateSM st4 id fun s =>
      { s with shiftctrl :=
        { fjoin_rx := b.fjoin_rx
          fjoin_tx := b.fjoin_tx
          autopull := b.autopull
          autopush := b.autopush
          pull_thresh := b.pull_thresh % 2 ^ 5
          push_thresh := b.push_thresh % 2 ^ 5
          out_shiftdir := b.out_shiftdir
          in_shiftdir := b.in_shiftdir } }
    let st6 := updateSM st5 id fun s =>
      { s with
        clkdiv_int := (set_clock_divisor b.clock_divisor).fst
        clkdiv_frac := (set_clock_divisor b.clock_divisor).snd }
    let st7 := { st6 with ctrl := restart st6.ctrl id }
    let st8 := { st7 with ctrl := reset_clock st7.ctrl id }
    let instr := (0 ||| offset % 2 ^ 16) % 2 ^ 16
    let st9 := updateSM st8 id fun s => execForced (set_instruction s instr) instr
    let st10 := { st9 with ctrl := set_enabled st9.ctrl id true }
    (.ok (), st10,
      [ .reserve offset b.instructions.length
      , .enableWrite id false
      , .execctrlWrite id wt wb
      , .pinctrlWrite id
      , .shiftctrlWrite id
      , .clkdivWrite id
      , .restartWrite id
      , .clkdivRestartWrite id
      , .instrWrite id instr
      , .enableWrite id true ])

/-- Reset values of the per-state-machine registers (all fields 0/false;
`execctrl` and `shiftctrl` non-zero reset bits are irrelevant to the claims
and taken as 0 here — the fixture is only used as a concrete test state). -/
def initSM : SMState where
  execctrl :=
    { wrap_top := 0, wrap_bottom := 0, side_en := false, side_pindir := false
      jmp_pin := 0, out_sticky := false, inline_out_en := false
      out_en_sel := 0, status_sel := false }
  pinctrl :=
    { in_base := 0, out_base := 0, out_count := 0, set_base := 0
      set_count := 0, sideset_base := 0, sideset_count := 0 }
  shiftctrl :=
    { fjoin_rx := false, fjoin_tx := false, autopull := false
      autopush := false, pull_thresh := 0, push_thresh := 0
      out_shiftdir := false, in_shiftdir := false }
  clkdiv_int := 0
  clkdiv_frac := 0
  instr := 0
  addr := 0

/-- A freshly constructed PIO block: empty occupancy bitmap (`PIO::new`
starts `used_instruction_space` at 0), zeroed instruction memory and
registers. -/
def initState : PIOState where
  used := 0
  instrMem := fun _ => 0
  ctrl := { clkdiv_restart := 0, sm_restart := 0, sm_enable := 0 }
  sm := fun _ => initSM

/-- A one-instruction program (`mov y, y`) requested at fixed origin 5,
with all other builder settings left at their defaults (in particular
`wrap = (0, 31)`). -/
def demoBuilder : PIOBuilder :=
  { PIOBuilder.default with
    instructions := [0xA042]
    instruction_offset := some 5 }

/-! ## Helper lemmas -/

theorem u32shl_eq_of_lt {x n : Nat} (hn : n < 32) (h : x * 2 ^ n < 2 ^ 32) :
    u32shl x n = x * 2 ^ n := by
  unfold u32shl
  rw [Nat.mod_eq_of_lt hn, Nat.shiftLeft_eq, Nat.mod_eq_of_lt h]

theorem u32mask_eq {len : Nat} (h : len < 32) : u32mask len = 2 ^ len - 1 := by
  unfold u32mask
  rw [u32shl_eq_of_lt h (by simpa using Nat.pow_lt_pow_right (by norm_num) h),
    one_mul]

theorem rangeIncl_to_zero {a : Nat} (h : 1 ≤ a) : rangeIncl a 0 = [] := by
  unfold rangeIncl
  rw [show 0 + 1 - a = 0 by omega]
  rfl

theorem mem_rangeIncl_to_zero {a o : Nat} (h : o ∈ rangeIncl a 0) : o = 0 := by
  rcases List.mem_map.mp h with ⟨k, hk, rfl⟩
  rw [List.mem_range] at hk
  omega

/-- The test `used &&& ((2^L - 1) * 2^X) = 0` says exactly that the bitmap slots
`[X, X+L)` are all free. -/
theorem and_window_mask_eq_zero {used X L : Nat} :
    used &&& (2 ^ L - 1) * 2 ^ X = 0 ↔
      ∀ j, X ≤ j → j < X + L → used.testBit j = false := by
  rw [show (2 ^ L - 1) * 2 ^ X = (2 ^ L - 1) <<< X from (Nat.shiftLeft_eq _ _).symm]
  constructor
  · intro h j h1 h2
    have hb := congrArg (fun t => Nat.testBit t j) h
    simp only [Nat.testBit_and, Nat.testBit_shiftLeft,
      Nat.testBit_two_pow_sub_one, Nat.zero_testBit] at hb
    have hX : decide (X ≤ j) = true := by simpa using h1
    have hL : decide (j - X < L) = true := by simp; omega
    rw [hX, hL] at hb
    simpa using hb
  · intro h
    apply Nat.eq_of_testBit_eq
    intro j
    simp only [Nat.testBit_and, Nat.testBit_shiftLeft,
      Nat.testBit_two_pow_sub_one, Nat.zero_testBit]
    by_cases hX : X ≤ j
    · by_cases hL : j - X < L
      · rw [h j hX (by omega)]
        simp
      · simp [hL]
    · simp [hX]

theorem add_program_none_eq {st : PIOState} {i : List Nat} {o : Option Nat}
    {st' : PIOState} (h : add_program st i o = (none, st')) : st' = st := by
  unfold add_program at h
  cases hf : find_offset_for_instructions st.used i o with
  | some v => rw [hf] at h; simp at h
  | none =>
    rw [hf] at h
    exact (Prod.mk.injEq _ _ _ _ ▸ h).2.symm

theorem find_offset_some_lt {used : Nat} {i : List Nat} {origin : Option Nat}
    {o : Nat} (hlen : 1 ≤ i.length)
    (h : find_offset_for_instructions used i origin = some o) : o < 32 := by
  unfold find_offset_for_instructions at h
  by_cases hbig : i.length > 32
  · rw [if_pos hbig] at h; cases h
  · rw [if_neg hbig] at h
    cases origin with
    | some X =>
      simp only at h
      by_cases hX : X > 32 - i.length
      · rw [if_pos hX] at h; cases h
      · rw [if_neg hX] at h
        by_cases hu : used &&& u32shl (u32mask i.length) X ≠ 0
        · rw [if_pos hu] at h; cases h
        · rw [if_neg hu] at h
          cases h
          omega
    | none =>
      simp only at h
      have := mem_rangeIncl_to_zero (List.mem_of_find?_eq_some h)
      omega

theorem add_program_some_lt {st : PIOState} {i : List Nat} {origin : Option Nat}
    {o : Nat} {st' : PIOState} (hlen : 1 ≤ i.length)
    (h : add_program st i origin = (some o, st')) : o < 32 := by
  unfold add_program at h
  cases hf : find_offset_for_instructions st.used i origin with
  | some v =>
    rw [hf] at h
    have hv : v = o := by
      have := (Prod.mk.injEq _ _ _ _ ▸ h).1
      simpa using this
    exact hv ▸ find_offset_some_lt hlen hf
  | none => rw [hf] at h; simp at h

/-! ## C1: automatic placement never succeeds (empty scan range) -/

/-- C1: for every instruction list of spec-valid length below 32 and every
occupancy bitmap, `find_offset_for_instructions` with no fixed origin
returns `None`: the scan `for i in (32 - i.len())..=0` is an empty Rust
range whenever `32 - len ≥ 1`.  This refutes the claim that the call
succeeds exactly when a window of `L` contiguous free slots exists and
then returns the lowest such offset (e.g. on a completely free bitmap a
one-instruction program is rejected). -/
theorem find_offset_no_origin_never_succeeds (used : Nat) (i : List Nat)
    (h1 : 1 ≤ i.length) (h2 : i.length ≤ 31) :
    find_offset_for_instructions used i none = none := by
  unfold find_offset_for_instructions
  rw [if_neg (by omega)]
  simp only
  rw [rangeIncl_to_zero (by omega)]
  rfl

/-- Witness for C1's theorem: a one-instruction program on a completely
free bitmap is refused. -/
theorem find_offset_no_origin_never_succeeds_witness :
    find_offset_for_instructions 0 [0xE081] none = none :=
  find_offset_no_origin_never_succeeds 0 [0xE081] (by decide) (by decide)

/-! ## C2: `add_program` marks the wrong occupancy bits -/

/-- C2: `add_program` ORs the *unshifted* mask `(1 << len) - 1` into the
occupancy bitmap.  On a fresh block, reserving the two-instruction program
at fixed origin 4 returns offset 4 but marks bits `{0, 1}` (bitmap `3`),
not the claimed bits `[4, 6)` (bitmap `48`); consequently a second
reservation at the very same origin 4 succeeds again, so two successive
successful reservations can overlap. -/
theorem add_program_marks_unshifted_bits :
    (add_program initState [0x6001, 0x8020] (some 4)).fst = some 4
  ∧ (add_program initState [0x6001, 0x8020] (some 4)).snd.used = 3
  ∧ (add_program (add_program initState [0x6001, 0x8020] (some 4)).snd
      [0xA042, 0xA0C3] (some 4)).fst = some 4 := by
  refine ⟨rfl, rfl, rfl⟩

/-! ## C10: the mask shift overflows at the spec-valid length 32 -/

/-- C10: for an instruction list of the spec-valid maximal length 32, the
shift amount of the mask computation `(1 << i.len()) - 1` on the `u32`
bitmap is 32, which overflows the 32-bit shift (panic under overflow
checks; shift amount masked to 0 in release builds).  This refutes the
claim that the shift is non-overflowing for every length in `1..=32`. -/
theorem mask_shift_overflows_at_len_32 :
    u32_shl_overflows (mask_shift_amount (List.replicate 32 (0 : Nat))) = true
  ∧ (List.replicate 32 (0 : Nat)).length = 32 := by
  refine ⟨rfl, by simp⟩

/-! ## C8: builder defaults -/

/-- C8: a freshly constructed (default) builder has wrap = (0, 31), both
shift-direction flags set to `true` (the direction the spec names
"toward the most significant bit"), clock divisor 1.0, autopull and
autopush disabled with both thresholds 32, all pin base/count pairs (0,0)
except `out_count = 32`, no side-set, and no FIFO join. -/
theorem builder_default_fields :
    PIOBuilder.default.wrap_top = 0
  ∧ PIOBuilder.default.wrap_bottom = 31
  ∧ PIOBuilder.default.in_shiftdir = true
  ∧ PIOBuilder.default.out_shiftdir = true
  ∧ PIOBuilder.default.clock_divisor = 1
  ∧ PIOBuilder.default.autopull = false
  ∧ PIOBuilder.default.autopush = false
  ∧ PIOBuilder.default.pull_thresh = 32
  ∧ PIOBuilder.default.push_thresh = 32
  ∧ PIOBuilder.default.in_base = 0
  ∧ PIOBuilder.default.out_base = 0
  ∧ PIOBuilder.default.out_count = 32
  ∧ PIOBuilder.default.set_base = 0
  ∧ PIOBuilder.default.set_count = 0
  ∧ PIOBuilder.default.sideset_base = 0
  ∧ PIOBuilder.default.sideset_count = 0
  ∧ PIOBuilder.default.side_en = false
  ∧ PIOBuilder.default.side_pindir = false
  ∧ PIOBuilder.default.fjoin_rx = false
  ∧ PIOBuilder.default.fjoin_tx = false :=
  ⟨rfl, rfl, rfl, rfl, rfl, rfl, rfl, rfl, rfl, rfl,
   rfl, rfl, rfl, rfl, rfl, rfl, rfl, rfl, rfl, rfl⟩

/-! ## C3: fixed-origin allocation -/

theorem find_offset_fixed_iff (used : Nat) (i : List Nat) (X : Nat)
    (h1 : 1 ≤ i.length) (h2 : i.length ≤ 31) :
    find_offset_for_instructions used i (some X) = some X ↔
      X + i.length ≤ 32 ∧
        ∀ j, X ≤ j → j < X + i.length → used.testBit j = false := by
  unfold find_offset_for_instructions
  rw [if_neg (by omega)]
  simp only
  by_cases hX : X > 32 - i.length
  · rw [if_pos hX]
    constructor
    · intro h; cases h
    · intro h; omega
  · rw [if_neg hX]
    have hXL : X + i.length ≤ 32 := by omega
    have hmask : u32shl (u32mask i.length) X = (2 ^ i.length - 1) * 2 ^ X := by
      rw [u32mask_eq (by omega)]
      refine u32shl_eq_of_lt (by omega) ?_
      calc (2 ^ i.length - 1) * 2 ^ X < 2 ^ i.length * 2 ^ X := by
            have hpos : 0 < 2 ^ X := Nat.pos_pow_of_pos _ (by norm_num)
            have hlt : 2 ^ i.length - 1 < 2 ^ i.length :=
              Nat.sub_lt (Nat.pos_pow_of_pos _ (by norm_num)) (by norm_num)
            exact (Nat.mul_lt_mul_right hpos).mpr hlt
        _ = 2 ^ (i.length + X) := by rw [← pow_add]
        _ ≤ 2 ^ 32 := Nat.pow_le_pow_right (by norm_num) (by omega)
    rw [hmask]
    by_cases hu : used &&& (2 ^ i.length - 1) * 2 ^ X = 0
    · rw [if_neg (by simpa using hu)]
      constructor
      · intro _
        exact ⟨hXL, and_window_mask_eq_zero.mp hu⟩
      · intro _; rfl
    · rw [if_pos (by simpa using hu)]
      constructor
      · intro h; cases h
      · intro h
        exact absurd (and_window_mask_eq_zero.mpr h.2) hu

/-- C3 (amended to lengths `1..=31`): for every fixed origin `X` and every
program of length `L` with `1 ≤ L ≤ 31`, the fixed-origin reservation
succeeds (returning `X`) if and only if `X + L ≤ 32` and every slot of
`[X, X+L)` is free in the occupancy bitmap, and when it fails the whole
state — bitmap included — is unchanged. -/
theorem add_program_fixed_origin (st : PIOState) (i : List Nat) (X : Nat)
    (h1 : 1 ≤ i.length) (h2 : i.length ≤ 31) :
    ((add_program st i (some X)).fst = some X ↔
      X + i.length ≤ 32 ∧
        ∀ j, X ≤ j → j < X + i.length → st.used.testBit j = false)
  ∧ ((add_program st i (some X)).fst = none →
      (add_program st i (some X)).snd = st) := by
  have hfst : (add_program st i (some X)).fst =
      find_offset_for_instructions st.used i (some X) := by
    unfold add_program
    cases hf : find_offset_for_instructions st.used i (some X) with
    | some v => rfl
    | none => rfl
  constructor
  · rw [hfst]
    exact find_offset_fixed_iff st.used i X h1 h2
  · intro h
    have hpair : add_program st i (some X) =
        (none, (add_program st i (some X)).snd) := by
      rw [← h]
    exact add_program_none_eq hpair

/-- Witness for C3's amended theorem: on a fresh block a two-instruction
program is accepted at fixed origin 30 (the window `[30, 32)` is free). -/
theorem add_program_fixed_origin_witness :
    (add_program initState [0x6001, 0x8020] (some 30)).fst = some 30 :=
  (add_program_fixed_origin initState [0x6001, 0x8020] 30 (by decide)
    (by decide)).1.mpr
    ⟨by decide, fun j _ _ => Nat.zero_testBit j⟩

/-- Counterexample to C3 as stated (which includes length 32): with slot 0
already occupied (`used = 1`), a 32-instruction program at fixed origin 0
must fail according to the claim, but the code accepts it: the mask
`(1u32 << 32) - 1` overflows — under release (wrapped-shift) semantics it
degenerates to 0, making the occupancy check vacuous (under overflow
checks the same call panics instead of failing cleanly). -/
theorem find_offset_fixed_len32_cex :
    find_offset_for_instructions 1 (List.replicate 32 0) (some 0) = some 0
  ∧ Nat.testBit 1 0 = true := by
  refine ⟨rfl, rfl⟩

/-! ## C6: `set_enabled` touches only this unit's enable bit -/

theorem set_enabled_bit_self : ∀ e < 16, ∀ id < 4, ∀ b : Bool,
    ((((e &&& u8not (u8shl 1 id)) ||| u8shl (cond b 1 0) id) % 2 ^ 4).testBit id)
      = b := by
  decide

theorem set_enabled_bit_other : ∀ e < 16, ∀ id < 4, ∀ j < 4, ∀ b : Bool,
    j ≠ id →
    ((((e &&& u8not (u8shl 1 id)) ||| u8shl (cond b 1 0) id) % 2 ^ 4).testBit j)
      = e.testBit j := by
  decide

/-- C6: for every unit id `u < 4`, every prior value of the shared `ctrl`
register and every `b`, `set_enabled` sets unit `u`'s enable bit to `b` and
leaves the enable bits of the three sibling units exactly as they were. -/
theorem set_enabled_sets_only_own_bit (c : CtrlReg) (id : Nat) (b : Bool)
    (hid : id < 4) :
    (set_enabled c id b).sm_enable.testBit id = b
  ∧ ∀ j, j < 4 → j ≠ id →
      (set_enabled c id b).sm_enable.testBit j = c.sm_enable.testBit j := by
  have he : c.sm_enable % 2 ^ 4 < 16 := Nat.mod_lt _ (by norm_num)
  constructor
  · exact set_enabled_bit_self (c.sm_enable % 2 ^ 4) he id hid b
  · intro j hj hne
    have hrhs : c.sm_enable.testBit j = (c.sm_enable % 2 ^ 4).testBit j := by
      rw [Nat.testBit_mod_two_pow]
      simp [hj]
    rw [hrhs]
    exact set_enabled_bit_other (c.sm_enable % 2 ^ 4) he id hid j hj b hne

/-- Witness for C6's theorem: with units 0 and 2 enabled (`sm_enable = 5`),
enabling unit 2 keeps it enabled and leaves unit 0's bit set. -/
theorem set_enabled_sets_only_own_bit_witness :
    (set_enabled { clkdiv_restart := 0, sm_restart := 0, sm_enable := 5 }
        2 true).sm_enable.testBit 2 = true
  ∧ (set_enabled { clkdiv_restart := 0, sm_restart := 0, sm_enable := 5 }
        2 true).sm_enable.testBit 0
      = Nat.testBit 5 0 :=
  ⟨(set_enabled_sets_only_own_bit
      { clkdiv_restart := 0, sm_restart := 0, sm_enable := 5 } 2 true
      (by norm_num)).1,
   (set_enabled_sets_only_own_bit
      { clkdiv_restart := 0, sm_restart := 0, sm_enable := 5 } 2 true
      (by norm_num)).2 0 (by norm_num) (by norm_num)⟩

/-! ## C9: `restart` / `reset_clock` rewrite the whole `ctrl` register -/

theorem or_bit_aux : ∀ r < 16, ∀ id < 4, ∀ j < 4,
    ((r ||| u8shl 1 id) % 2 ^ 4).testBit j
      = (r.testBit j || decide (j = id)) := by
  decide

/-- C9: `restart` (respectively `reset_clock`) performs a whole-register
write of the shared `ctrl` register in which only the accumulated
`sm_restart` (respectively `clkdiv_restart`) field is set — the unit's bit
is ORed into the field it read back — and every other field, including the
enable bits of all four units, is written as zero.  In particular
restarting one unit during `build` clears the sibling units' enable bits. -/
theorem restart_and_reset_clock_zero_other_fields (c : CtrlReg) (id j : Nat)
    (hid : id < 4) (hj : j < 4) :
    (restart c id).sm_enable = 0
  ∧ (restart c id).clkdiv_restart = 0
  ∧ (restart c id).sm_restart.testBit j
      = (c.sm_restart.testBit j || decide (j = id))
  ∧ (reset_clock c id).sm_enable = 0
  ∧ (reset_clock c id).sm_restart = 0
  ∧ (reset_clock c id).clkdiv_restart.testBit j
      = (c.clkdiv_restart.testBit j || decide (j = id)) := by
  refine ⟨rfl, rfl, ?_, rfl, rfl, ?_⟩
  · have h16 : c.sm_restart % 2 ^ 4 < 16 := Nat.mod_lt _ (by norm_num)
    have h := or_bit_aux (c.sm_restart % 2 ^ 4) h16 id hid j hj
    have hr : (c.sm_restart % 2 ^ 4).testBit j = c.sm_restart.testBit j := by
      rw [Nat.testBit_mod_two_pow]
      simp [hj]
    rw [hr] at h
    exact h
  · have h16 : c.clkdiv_restart % 2 ^ 4 < 16 := Nat.mod_lt _ (by norm_num)
    have h := or_bit_aux (c.clkdiv_restart % 2 ^ 4) h16 id hid j hj
    have hr : (c.clkdiv_restart % 2 ^ 4).testBit j = c.clkdiv_restart.testBit j := by
      rw [Nat.testBit_mod_two_pow]
      simp [hj]
    rw [hr] at h
    exact h

/-- Witness for C9's theorem: with all four units enabled
(`sm_enable = 15`), `restart` on unit 1 leaves `sm_enable = 0` and sets
restart bit 1. -/
theorem restart_and_reset_clock_zero_other_fields_witness :
    (restart { clkdiv_restart := 0, sm_restart := 0, sm_enable := 15 }
        1).sm_enable = 0
  ∧ (restart { clkdiv_restart := 0, sm_restart := 0, sm_enable := 15 }
        1).sm_restart.testBit 1
      = (Nat.testBit 0 1 || decide ((1 : Nat) = 1)) :=
  ⟨(restart_and_reset_clock_zero_other_fields
      { clkdiv_restart := 0, sm_restart := 0, sm_enable := 15 } 1 1
      (by norm_num) (by norm_num)).1,
   (restart_and_reset_clock_zero_other_fields
      { clkdiv_restart := 0, sm_restart := 0, sm_enable := 15 } 1 1
      (by norm_num) (by norm_num)).2.2.1⟩

/-! ## C7: clock-divisor encoding -/

/-- C7: for every divisor value in the representable range
`0 ≤ q < 2 ^ 16`, `set_clock_divisor` encodes it as the 16-bit integer part
`⌊q⌋` and the 8-bit fractional part `⌊(q − ⌊q⌋) · 256⌋`; in particular
`set_clock_divisor 1.0` writes `(1, 0)` and `set_clock_divisor 2.5` writes
`(2, 128)`. -/
theorem set_clock_divisor_encoding (q : ℚ) (h0 : 0 ≤ q) (h1 : q < 65536) :
    set_clock_divisor q = (⌊q⌋.toNat, ⌊(q - ⌊q⌋) * 256⌋.toNat)
  ∧ set_clock_divisor 1 = (1, 0)
  ∧ set_clock_divisor (5 / 2) = (2, 128) := by
  refine ⟨?_, ?_, ?_⟩
  · have htr : ratTrunc q = ⌊q⌋ := if_pos h0
    have hfr0 : (0 : ℚ) ≤ (q - ⌊q⌋) * 256 := by
      have := Int.fract_nonneg q
      rw [Int.fract] at this
      positivity
    have hfr1 : (q - ⌊q⌋) * 256 < 256 := by
      have := Int.fract_lt_one q
      rw [Int.fract] at this
      nlinarith
    unfold set_clock_divisor castU16 castU8
    rw [htr]
    rw [if_neg (by push_neg; exact h0), if_neg (by push_neg; exact hfr0)]
    rw [show ratTrunc ((q - ⌊q⌋) * 256) = ⌊(q - ⌊q⌋) * 256⌋ from if_pos hfr0]
    congr 1
    · refine min_eq_left ?_
      have : ⌊q⌋ < 65536 := by
        rw [Int.floor_lt]
        exact_mod_cast h1
      omega
    · refine min_eq_left ?_
      have : ⌊(q - ⌊q⌋) * 256⌋ < 256 := by
        rw [Int.floor_lt]
        exact_mod_cast hfr1
      omega
  · unfold set_clock_divisor castU16 castU8 ratTrunc
    norm_num
  · have h52 : ⌊(5 / 2 : ℚ)⌋ = 2 := by
      rw [Int.floor_eq_iff]
      norm_num
    unfold set_clock_divisor castU16 castU8 ratTrunc
    rw [if_neg (by norm_num), if_pos (by norm_num), h52]
    norm_num
    exact ⟨rfl, rfl⟩

/-- Witness for C7's theorem: `set_clock_divisor 2.5 = (2, 128)`. -/
theorem set_clock_divisor_encoding_witness :
    set_clock_divisor (5 / 2 : ℚ) = (2, 128) :=
  (set_clock_divisor_encoding (5 / 2) (by norm_num) (by norm_num)).2.2

/-! ## C4: `NoSpace` means nothing was touched -/

/-- C4: whenever `build` returns the `NoSpace` error, no hardware state has
been mutated — the occupancy bitmap, the instruction-memory words, the
shared `ctrl` register and every state-machine register are exactly as they
were before the call — and no hardware write event was emitted. -/
theorem build_no_space_no_mutation (b : PIOBuilder) (st : PIOState) (id : Nat)
    (h : (build b st id).fst = .error .NoSpace) :
    (build b st id).snd.fst = st ∧ (build b st id).snd.snd = [] := by
  unfold build at h ⊢
  rcases hap : add_program st b.instructions b.instruction_offset with ⟨r, st0⟩
  cases r with
  | some o =>
    rw [hap] at h
    simp at h
  | none => exact ⟨add_program_none_eq hap, rfl⟩

/-- Witness for C4's theorem: the default builder (empty program, no fixed
origin) is refused — automatic placement finds nothing — and the state is
returned untouched. -/
theorem build_no_space_no_mutation_witness :
    (build PIOBuilder.default initState 0).snd.fst = initState
  ∧ (build PIOBuilder.default initState 0).snd.snd = [] :=
  build_no_space_no_mutation PIOBuilder.default initState 0 rfl

/-! ## C5: the write sequence of a successful `build` -/

theorem execForced_jmp (s : SMState) {v : Nat} (hv : v < 32) :
    (execForced (set_instruction s v) v).addr = v := by
  unfold execForced set_instruction
  have h13 : v >>> 13 = 0 := by
    rw [Nat.shiftRight_eq_div_pow]
    exact Nat.div_eq_of_lt (by omega)
  have h5 : v >>> 5 = 0 := by
    rw [Nat.shiftRight_eq_div_pow]
    exact Nat.div_eq_of_lt (by omega)
  rw [if_pos ⟨by rw [h13]; norm_num, by rw [h5]; norm_num⟩]
  exact Nat.mod_eq_of_lt (by omega)

/-- C5 (amended): every successful `build` of a program with at least one
instruction performs its hardware writes in exactly this order: reserve
instruction memory, disable the target unit, write the execution control
register (with wrap bounds translated to `(allocation_offset + relative
bound) mod 32` — the 5-bit wrap fields truncate), write the pin control and
shift control registers, program the clock divisor, restart the unit, reset
its clock phase, force an unconditional jump instruction whose target
address equals the allocation offset, and finally enable the unit — so
afterwards the unit is enabled with its program counter at the allocation
offset. -/
theorem build_write_sequence (b : PIOBuilder) (st st1 : PIOState) (id o : Nat)
    (hid : id < 4) (hlen : 1 ≤ b.instructions.length)
    (hap : add_program st b.instructions b.instruction_offset = (some o, st1)) :
    (build b st id).fst = .ok ()
  ∧ (build b st id).snd.snd =
      [ .reserve o b.instructions.length
      , .enableWrite id false
      , .execctrlWrite id ((o + b.wrap_top) % 32) ((o + b.wrap_bottom) % 32)
      , .pinctrlWrite id
      , .shiftctrlWrite id
      , .clkdivWrite id
      , .restartWrite id
      , .clkdivRestartWrite id
      , .instrWrite id o
      , .enableWrite id true ]
  ∧ (build b st id).snd.fst.ctrl.sm_enable.testBit id = true
  ∧ ((build b st id).snd.fst.sm id).addr = o := by
  have ho : o < 32 := add_program_some_lt hlen hap
  have hwt : ∀ w : Nat, (o % 2 ^ 8 + w) % 2 ^ 8 % 2 ^ 5 = (o + w) % 32 := by
    intro w
    rw [Nat.mod_eq_of_lt (show o < 2 ^ 8 by omega)]
    exact Nat.mod_mod_of_dvd _ (by norm_num)
  have hinstr : (0 ||| o % 2 ^ 16) % 2 ^ 16 = o := by
    rw [Nat.zero_or, Nat.mod_mod_of_dvd _ dvd_rfl]
    exact Nat.mod_eq_of_lt (by omega)
  unfold build
  rw [hap]
  refine ⟨rfl, ?_, ?_, ?_⟩
  · simp only [hwt, hinstr]
  · exact set_enabled_bit_self 0 (by norm_num) id hid true
  · simp only [hinstr, updateSM, ite_true, eq_self_iff_true]
    exact execForced_jmp _ ho

/-- Witness for C5's theorem: building `demoBuilder` (one instruction at
fixed origin 5, default wrap `(0, 31)`) on unit 2 of a fresh block. -/
theorem build_write_sequence_witness :
    (build demoBuilder initState 2).fst = .ok ()
  ∧ (build demoBuilder initState 2).snd.snd =
      [ .reserve 5 1
      , .enableWrite 2 false
      , .execctrlWrite 2 5 4
      , .pinctrlWrite 2
      , .shiftctrlWrite 2
      , .clkdivWrite 2
      , .restartWrite 2
      , .clkdivRestartWrite 2
      , .instrWrite 2 5
      , .enableWrite 2 true ]
  ∧ (build demoBuilder initState 2).snd.fst.ctrl.sm_enable.testBit 2 = true
  ∧ ((build demoBuilder initState 2).snd.fst.sm 2).addr = 5 := by
  have h := build_write_sequence demoBuilder initState
    (add_program initState demoBuilder.instructions
      demoBuilder.instruction_offset).snd 2 5
    (by norm_num) (by decide) rfl
  simpa [demoBuilder, PIOBuilder.default] using h

/-- Counterexample to C5 as stated: the claim's "wrap bounds translated to
allocation_offset + relative bound" fails — building `demoBuilder` (default
`wrap_bottom = 31`, allocated at offset 5) succeeds, but the execution
control write carries a wrap bottom of `(5 + 31) % 32 = 4`, not the claimed
`5 + 31 = 36`, because the hardware field is 5 bits wide. -/
theorem build_wrap_translation_cex :
    (build demoBuilder initState 0).fst = .ok ()
  ∧ (build demoBuilder initState 0).snd.snd.get? 2
      = some (.execctrlWrite 0 5 4)
  ∧ (build demoBuilder initState 0).snd.snd.get? 2
      ≠ some (.execctrlWrite 0 (5 + PIOBuilder.default.wrap_top)
          (5 + PIOBuilder.default.wrap_bottom)) := by
  refine ⟨rfl, rfl, by decide⟩

end Pio
